import Mathlib

/-
Verification development for the proxmox secrets plugin.

Shallow embedding conventions:
* Go strings are Lean `String` (≅ `List Char` via `.data`).
* `time.Duration` values are modelled in whole seconds as `Int`: every write in the
  source multiplies a second count by `time.Second` and every read divides by it,
  so the nanosecond scale factor is invariant throughout.
* Vault storage is modelled as a pure record (a config slot plus an association
  list of roles); storage I/O errors and JSON decode errors are not modelled.
* `framework.FieldData.GetOk` is modelled by `Option` fields: `none` means the
  key was absent from the request data.
* A Go runtime panic (nil pointer dereference) is modelled by `GoResult.nilDeref`.
* The remote Proxmox API client library is an external collaborator; its calls
  are modelled by oracle function parameters.
-/

/-- Request operation kind relevant to the write handlers
(`logical.CreateOperation` vs `logical.UpdateOperation`). -/
inductive GoOperation where
  | create
  | update
deriving DecidableEq

/-- Result of a Go handler: `(resp, nil)` success, `(nil, err)` Go error, or a
runtime panic from a nil pointer dereference. -/
inductive GoResult (α : Type) where
  | ok : α → GoResult α
  | err : String → GoResult α
  | nilDeref : GoResult α
deriving DecidableEq

/-- Dynamic values stored in `logical.Response.Data` maps. -/
inductive FieldValue where
  | str : String → FieldValue
  | int : Int → FieldValue
  | bool : Bool → FieldValue
deriving DecidableEq

/-- `proxmoxConfig` from path_config.go (lines 17-27).  `taskTimeout` holds the
`timeout` duration in seconds. -/
structure ProxmoxConfig where
  user : String
  realm : String
  apiTokenID : String
  apiTokenSecret : String
  apiURL : String
  skipCertValidation : Bool
  httpHeaders : String
  proxyServer : String
  taskTimeout : Int
deriving DecidableEq

/-- The Go zero value `new(proxmoxConfig)`. -/
def emptyProxmoxConfig : ProxmoxConfig :=
  { user := "", realm := "", apiTokenID := "", apiTokenSecret := "", apiURL := "",
    skipCertValidation := false, httpHeaders := "", proxyServer := "", taskTimeout := 0 }

/-- `proxmoxRoleEntry` from the role path file (lines 12-20); TTLs in seconds. -/
structure ProxmoxRoleEntry where
  name : String
  user : String
  realm : String
  ttl : Int
  maxTTL : Int
deriving DecidableEq

/-- The backend's view of `logical.Storage`: the singleton `config` entry and
the `role/<name>` entries (newest binding first; `lookup` finds the newest,
matching overwrite-on-put semantics). -/
structure Storage where
  config : Option ProxmoxConfig
  roles : List (String × ProxmoxRoleEntry)
deriving DecidableEq

def emptyStorage : Storage := { config := none, roles := [] }

/-- `req.Storage.Put` for a `role/<name>` key: later bindings shadow older ones. -/
def rolesPut (l : List (String × ProxmoxRoleEntry)) (n : String) (e : ProxmoxRoleEntry) :
    List (String × ProxmoxRoleEntry) :=
  (n, e) :: l

/-- `getConfig` from path_config.go (lines 256-272): absent entry yields `none`
(the Go function returns `nil, nil`). -/
def getConfig (s : Storage) : Option ProxmoxConfig :=
  s.config

/-- The response data map built by `pathConfigRead` (path_config.go lines 147-158):
every field except `token_secret`. -/
def configReadData (c : ProxmoxConfig) : List (String × FieldValue) :=
  [("user", FieldValue.str c.user),
   ("realm", FieldValue.str c.realm),
   ("token_id", FieldValue.str c.apiTokenID),
   ("proxmox_url", FieldValue.str c.apiURL),
   ("insecure_skip_tls_verify", FieldValue.bool c.skipCertValidation),
   ("http_headers", FieldValue.str c.httpHeaders),
   ("proxy_server", FieldValue.str c.proxyServer),
   ("timeout", FieldValue.int c.taskTimeout)]

/-- `pathConfigRead` (path_config.go lines 141-159).  The source has no nil
check: when `getConfig` returns `nil` the access `c.User` dereferences a nil
pointer, modelled by `GoResult.nilDeref`. -/
def pathConfigRead (s : Storage) : GoResult (List (String × FieldValue)) :=
  match getConfig s with
  | none => GoResult.nilDeref
  | some c => GoResult.ok (configReadData c)

/-- `proxmoxClient` as built by `newClient`: the fields of the remote API client
that this code sets (`pxapi.NewClient` + `SetAPIToken`). -/
structure ProxmoxClient where
  fullToken : String
  tokenSecret : String
  apiURL : String
  insecureSkipVerify : Bool
  httpHeaders : String
  proxyServer : String
  timeoutSeconds : Int
deriving DecidableEq

/-- `newClient` from the client file (lines 15-41).  `pxapi.NewClient` itself is
an external constructor modelled as always succeeding; the TLS config passed to
it sets `InsecureSkipVerify` exactly when `SkipCertValidation` is set. -/
def newClient (config : Option ProxmoxConfig) : Except String ProxmoxClient :=
  match config with
  | none => Except.error "client configuration was nil"
  | some c =>
    if c.apiTokenID = "" then Except.error "client api token was not defined"
    else
      Except.ok
        { fullToken := c.user ++ "@" ++ c.realm ++ "!" ++ c.apiTokenID,
          tokenSecret := c.apiTokenSecret,
          apiURL := c.apiURL,
          insecureSkipVerify := c.skipCertValidation,
          httpHeaders := c.httpHeaders,
          proxyServer := c.proxyServer,
          timeoutSeconds := c.taskTimeout }

/-- The mutable state of `proxmoxBackend` (backend.go lines 20-24) relevant to
the sequential embedding: the cached client.  The RWMutex is modelled
separately in the interleaving model below. -/
structure BackendState where
  client : Option ProxmoxClient
deriving DecidableEq

/-- The profile `getClient` builds from: `config == nil` is replaced by
`new(proxmoxConfig)` (backend.go lines 84-86). -/
def effectiveConfig (s : Storage) : ProxmoxConfig :=
  (getConfig s).getD emptyProxmoxConfig

/-- `getClient` (backend.go lines 66-94), sequential view: cached client is
returned as-is; otherwise the client is rebuilt from the current profile and
cached. -/
def getClient (b : BackendState) (s : Storage) :
    Except String (ProxmoxClient × BackendState) :=
  match b.client with
  | some c => Except.ok (c, b)
  | none =>
    match newClient (some (effectiveConfig s)) with
    | Except.error e => Except.error e
    | Except.ok c => Except.ok (c, { b with client := some c })

/-- The request data seen by `pathConfigWrite` through `FieldData`; `none`
means the key was not supplied. -/
structure ConfigFields where
  user : Option String
  realm : Option String
  tokenID : Option String
  tokenSecret : Option String
  proxmoxURL : Option String
  skipCertValidation : Option Bool
  httpHeaders : Option String
  proxyServer : Option String
  timeout : Option Int
deriving DecidableEq

/-- One required-string block of `pathConfigWrite` (e.g. lines 176-180): set the
field when supplied, otherwise fail on create. -/
def mergeConfigRequired (createOperation : Bool) (c : ProxmoxConfig) (v? : Option String)
    (set : ProxmoxConfig → String → ProxmoxConfig) (msg : String) :
    Except String ProxmoxConfig :=
  match v? with
  | some v => Except.ok (set c v)
  | none => if createOperation then Except.error msg else Except.ok c

/-- The `proxmox_url` block (lines 200-206): additionally requires a non-empty
string, so a supplied empty string counts as not supplied. -/
def mergeConfigURL (createOperation : Bool) (c : ProxmoxConfig) (v? : Option String) :
    Except String ProxmoxConfig :=
  match v? with
  | some v =>
    if v.length > 0 then Except.ok { c with apiURL := v }
    else if createOperation then Except.error "missing proxmox_url in configuration"
    else Except.ok c
  | none =>
    if createOperation then Except.error "missing proxmox_url in configuration"
    else Except.ok c

/-- One optional block of `pathConfigWrite` (e.g. lines 208-212): set when
supplied, fall back to the schema default on create, keep otherwise. -/
def mergeConfigOptional {α : Type} (createOperation : Bool) (c : ProxmoxConfig)
    (v? : Option α) (set : ProxmoxConfig → α → ProxmoxConfig) (dflt : α) : ProxmoxConfig :=
  match v? with
  | some v => set c v
  | none => if createOperation then set c dflt else c

/-- The field-merging body of `pathConfigWrite` (path_config.go lines 176-230),
applied to the existing (or fresh) config record. -/
def mergeConfigFields (op : GoOperation) (c0 : ProxmoxConfig) (d : ConfigFields) :
    Except String ProxmoxConfig :=
  let createOperation := op == GoOperation.create
  match mergeConfigRequired createOperation c0 d.user
      (fun c v => { c with user := v }) "missing user in configuration" with
  | Except.error m => Except.error m
  | Except.ok c1 =>
  match mergeConfigRequired createOperation c1 d.realm
      (fun c v => { c with realm := v }) "missing realm in configuration" with
  | Except.error m => Except.error m
  | Except.ok c2 =>
  match mergeConfigRequired createOperation c2 d.tokenID
      (fun c v => { c with apiTokenID := v }) "missing token_id in configuration" with
  | Except.error m => Except.error m
  | Except.ok c3 =>
  match mergeConfigRequired createOperation c3 d.tokenSecret
      (fun c v => { c with apiTokenSecret := v }) "missing token_secret in configuration" with
  | Except.error m => Except.error m
  | Except.ok c4 =>
  match mergeConfigURL createOperation c4 d.proxmoxURL with
  | Except.error m => Except.error m
  | Except.ok c5 =>
    let c6 := mergeConfigOptional createOperation c5 d.skipCertValidation
      (fun c v => { c with skipCertValidation := v }) false
    let c7 := mergeConfigOptional createOperation c6 d.httpHeaders
      (fun c v => { c with httpHeaders := v }) ""
    let c8 := mergeConfigOptional createOperation c7 d.proxyServer
      (fun c v => { c with proxyServer := v }) ""
    let c9 := mergeConfigOptional createOperation c8 d.timeout
      (fun c v => { c with taskTimeout := v }) 120
    Except.ok c9

/-- `pathConfigWrite` (path_config.go lines 161-244): update with no existing
record fails; a successful merge is persisted and the cached client is reset
(`b.reset()`). -/
def pathConfigWrite (op : GoOperation) (b : BackendState) (s : Storage) (d : ConfigFields) :
    GoResult Unit × BackendState × Storage :=
  match getConfig s, op with
  | none, GoOperation.update =>
    (GoResult.err "config not found during update operation", b, s)
  | existing, _ =>
    match mergeConfigFields op (existing.getD emptyProxmoxConfig) d with
    | Except.error m => (GoResult.err m, b, s)
    | Except.ok c =>
      (GoResult.ok (), { b with client := none }, { s with config := some c })

/-- `pathConfigDelete` (path_config.go lines 246-254): storage delete (modelled
as always succeeding) followed by `b.reset()`. -/
def pathConfigDelete (b : BackendState) (s : Storage) : BackendState × Storage :=
  ({ b with client := none }, { s with config := none })

/-- The request data seen by `pathRolesWrite`; `none` means not supplied. -/
structure RoleFields where
  name : Option String
  user : Option String
  realm : Option String
  ttl : Option Int
  maxTTL : Option Int
deriving DecidableEq

/-- Result of a role write: `logical.ErrorResponse` (user-facing, returned with a
nil Go error), a returned Go error, or success. -/
inductive RoleWriteResult where
  | errorResponse : String → RoleWriteResult
  | goError : String → RoleWriteResult
  | success : RoleWriteResult
deriving DecidableEq

/-- `getRole` from the role path file (lines 94-115): empty name is a Go error,
unknown name yields `none` (the Go function returns `nil, nil`). -/
def getRole (s : Storage) (name : String) : Except String (Option ProxmoxRoleEntry) :=
  if name = "" then Except.error "missing role name"
  else Except.ok (s.roles.lookup name)

/-- The `user` block of `pathRolesWrite` (lines 168-174): a supplied non-empty
string is set; otherwise create fails and update keeps the existing value. -/
def mergeRoleUser (createOperation : Bool) (r : ProxmoxRoleEntry) (u? : Option String) :
    Except String ProxmoxRoleEntry :=
  match u? with
  | some u =>
    if u.length > 0 then Except.ok { r with user := u }
    else if createOperation then Except.error "missing user in role"
    else Except.ok r
  | none =>
    if createOperation then Except.error "missing user in role"
    else Except.ok r

/-- The `realm` block of `pathRolesWrite` (lines 176-182). -/
def mergeRoleRealm (createOperation : Bool) (r : ProxmoxRoleEntry) (v? : Option String) :
    Except String ProxmoxRoleEntry :=
  match v? with
  | some v =>
    if v.length > 0 then Except.ok { r with realm := v }
    else if createOperation then Except.error "missing realm in role"
    else Except.ok r
  | none =>
    if createOperation then Except.error "missing realm in role"
    else Except.ok r

/-- The `ttl` block of `pathRolesWrite` (lines 184-188): set when supplied; on
create an absent value defaults to 0; on update it is kept. -/
def mergeRoleTTL (createOperation : Bool) (r : ProxmoxRoleEntry) (t? : Option Int) :
    ProxmoxRoleEntry :=
  match t? with
  | some t => { r with ttl := t }
  | none => if createOperation then { r with ttl := 0 } else r

/-- The `max_ttl` block of `pathRolesWrite` (lines 190-194). -/
def mergeRoleMaxTTL (createOperation : Bool) (r : ProxmoxRoleEntry) (t? : Option Int) :
    ProxmoxRoleEntry :=
  match t? with
  | some t => { r with maxTTL := t }
  | none => if createOperation then { r with maxTTL := 0 } else r

/-- The field-merging body of `pathRolesWrite` (lines 160-194): start from the
existing record or a fresh one carrying only the name, then apply each block. -/
def mergeRoleFields (op : GoOperation) (existing : Option ProxmoxRoleEntry)
    (n : String) (d : RoleFields) : Except String ProxmoxRoleEntry :=
  let createOperation := op == GoOperation.create
  let r0 := match existing with
    | some r => r
    | none => { name := n, user := "", realm := "", ttl := 0, maxTTL := 0 }
  match mergeRoleUser createOperation r0 d.user with
  | Except.error m => Except.error m
  | Except.ok r1 =>
  match mergeRoleRealm createOperation r1 d.realm with
  | Except.error m => Except.error m
  | Except.ok r2 =>
    let r3 := mergeRoleTTL createOperation r2 d.ttl
    let r4 := mergeRoleMaxTTL createOperation r3 d.maxTTL
    Except.ok r4

/-- `pathRolesWrite` (role path file, lines 149-205): resolve the existing
record, merge the supplied fields, validate `ttl <= max_ttl` when `max_ttl`
is non-zero, then persist. -/
def pathRolesWrite (op : GoOperation) (s : Storage) (d : RoleFields) :
    RoleWriteResult × Storage :=
  match d.name with
  | none => (RoleWriteResult.errorResponse "missing role name", s)
  | some n =>
    match getRole s n with
    | Except.error m => (RoleWriteResult.goError m, s)
    | Except.ok existing =>
      match mergeRoleFields op existing n d with
      | Except.error m => (RoleWriteResult.goError m, s)
      | Except.ok e =>
        if e.maxTTL ≠ 0 ∧ e.ttl > e.maxTTL then
          (RoleWriteResult.errorResponse "ttl cannot be greater than max_ttl", s)
        else
          (RoleWriteResult.success, { s with roles := rolesPut s.roles n e })

/-- The role record as it stands at the `ttl`/`max_ttl` validation check of
`pathRolesWrite` (after line 194); `none` when an earlier return fired. -/
def mergedRoleEntry (op : GoOperation) (s : Storage) (d : RoleFields) :
    Option ProxmoxRoleEntry :=
  match d.name with
  | none => none
  | some n =>
    match getRole s n with
    | Except.error _ => none
    | Except.ok existing => (mergeRoleFields op existing n d).toOption

/-- The digit-to-letter substitution of `createToken`
(proxmox_api_token.go line 117): `strings.NewReplacer` with ten single-character
rules applied over the whole string. -/
def digitMap (c : Char) : Char :=
  if c == '0' then 'g' else if c == '1' then 'h' else if c == '2' then 'i'
  else if c == '3' then 'j' else if c == '4' then 'k' else if c == '5' then 'l'
  else if c == '6' then 'm' else if c == '7' then 'n' else if c == '8' then 'o'
  else if c == '9' then 'p' else c

/-- The replacer applied to the full raw identifier string. -/
def remapTokenId (raw : List Char) : List Char :=
  raw.map digitMap

/-- Lowercase hexadecimal digit, the character class of `uuid.New().String()`
apart from the hyphens. -/
def isLowerHexDigit (c : Char) : Bool :=
  c == '0' || c == '1' || c == '2' || c == '3' || c == '4' || c == '5' || c == '6' ||
  c == '7' || c == '8' || c == '9' || c == 'a' || c == 'b' || c == 'c' || c == 'd' ||
  c == 'e' || c == 'f'

/-- Character admissible at position `i` of a canonical UUID string:
hyphens at positions 8, 13, 18 and 23, lowercase hex digits elsewhere. -/
def uuidCharOk (i : Nat) (c : Char) : Bool :=
  if i == 8 || i == 13 || i == 18 || i == 23 then c == '-' else isLowerHexDigit c

/-- The canonical shape of `uuid.New().String()`: 36 characters, hyphens at the
four fixed positions, lowercase hex digits everywhere else. -/
def isUUIDString (l : List Char) : Bool :=
  l.length == 36 &&
  (List.range 36).all fun i =>
    match l.get? i with
    | some c => uuidCharOk i c
    | none => false

/-- The argument record of `CreateApiToken` as assembled by `createToken`
(proxmox_api_token.go lines 119-124). -/
structure ApiTokenReq where
  user : String
  realm : String
  tokenId : String
  comment : String
  expire : Int
  privsep : Bool
deriving DecidableEq

/-- `proxmoxToken` (proxmox_api_token.go lines 19-22). -/
structure ProxmoxToken where
  tokenID : String
  secret : String
deriving DecidableEq

/-- `createToken` (proxmox_api_token.go lines 106-133).  The freshly generated
`uuid.New().String()` is the parameter `rawTokenId`; the remote
`CreateApiToken` call is the oracle `remote`, returning the minted secret or an
error.  `NewConfigUserFromApi` is modelled as always succeeding. -/
def createToken (user realm : String) (expire : Int) (privsep : Bool)
    (rawTokenId : String) (remote : ApiTokenReq → Except String String) :
    Except String ProxmoxToken :=
  if user.length = 0 then Except.error "error creating token: no user provided"
  else if realm.length = 0 then Except.error "error creating token: no realm provided"
  else
    match remote { user := user, realm := realm, tokenId := ⟨remapTokenId rawTokenId.data⟩,
                   comment := "Managed by Vault", expire := expire, privsep := privsep } with
    | Except.error e => Except.error ("error from API when creating token: " ++ e)
    | Except.ok secret =>
      Except.ok { tokenID := ⟨remapTokenId rawTokenId.data⟩, secret := secret }

/-- `(b *proxmoxBackend).createToken` (credentials path file, lines 492-518):
acquire the client, compute the absolute expiry (`now + TTL` only when TTL is
positive, else 0), and call `createToken` with privilege separation off.
The `token == nil` fallback branch is unreachable in the model because the
oracle either errs or returns a secret. -/
def backendCreateToken (b : BackendState) (s : Storage) (role : ProxmoxRoleEntry)
    (now : Int) (rawTokenId : String) (remote : ApiTokenReq → Except String String) :
    Except String (ProxmoxToken × BackendState) :=
  match getClient b s with
  | Except.error e => Except.error e
  | Except.ok (_, b') =>
    let expire : Int := if role.ttl > 0 then now + role.ttl else 0
    let privsep := false
    match createToken role.user role.realm expire privsep rawTokenId remote with
    | Except.error e =>
      Except.error ("error creating Proxmox API token for role " ++ role.name ++ ": " ++ e)
    | Except.ok t => Except.ok (t, b')

/-- The leased-secret response assembled by `createUserCreds`: the visible data
map, the lease internal data, and the lease TTLs (0 = leave the lease manager
default in place). -/
structure SecretResponse where
  data : List (String × FieldValue)
  internalData : List (String × String)
  leaseTTL : Int
  leaseMaxTTL : Int
deriving DecidableEq

/-- `createUserCreds` (credentials path file, lines 520-546). -/
def createUserCreds (b : BackendState) (s : Storage) (role : ProxmoxRoleEntry)
    (now : Int) (rawTokenId : String) (remote : ApiTokenReq → Except String String) :
    Except String (SecretResponse × BackendState) :=
  match backendCreateToken b s role now rawTokenId remote with
  | Except.error e => Except.error e
  | Except.ok (token, b') =>
    let tokenIDFull := role.user ++ "@" ++ role.realm ++ "!" ++ token.tokenID
    let resp : SecretResponse :=
      { data := [("token_id", FieldValue.str token.tokenID),
                 ("token_id_full", FieldValue.str tokenIDFull),
                 ("secret", FieldValue.str token.secret)],
        internalData := [("token_id", token.tokenID), ("role", role.name)],
        leaseTTL := if role.ttl > 0 then role.ttl else 0,
        leaseMaxTTL := if role.maxTTL > 0 then role.maxTTL else 0 }
    Except.ok (resp, b')

/-- `req.Secret.InternalData` as read by the revoke/renew callbacks.  The
values are modelled as strings, which is what issuance stores; `none` means the
key is absent. -/
structure LeaseInternalData where
  tokenID : Option String
  role : Option String
deriving DecidableEq

/-- One remote `DeleteApiToken` call as issued by `deleteToken`
(proxmox_api_token.go lines 135-147). -/
structure DeleteCall where
  user : String
  realm : String
  tokenID : String
deriving DecidableEq

/-- `tokenRevoke` (proxmox_api_token.go lines 42-76).  `remoteDelete` is the
remote deletion oracle (`some msg` = remote failure); the returned list records
the remote delete calls actually attempted.  A missing `token_id` key leaves
the identifier empty and proceeds (only `role` is mandatory). -/
def tokenRevoke (b : BackendState) (s : Storage) (idata : LeaseInternalData)
    (remoteDelete : DeleteCall → Option String) :
    GoResult Unit × BackendState × List DeleteCall :=
  match getClient b s with
  | Except.error e => (GoResult.err ("error getting client: " ++ e), b, [])
  | Except.ok (_, b') =>
    let tokenID := idata.tokenID.getD ""
    match idata.role with
    | none => (GoResult.err "secret is missing role internal data", b', [])
    | some role =>
      match getRole s role with
      | Except.error m => (GoResult.err ("error retrieving role: " ++ m), b', [])
      | Except.ok none => (GoResult.err "error retrieving role: role is nil", b', [])
      | Except.ok (some roleEntry) =>
        let call : DeleteCall :=
          { user := roleEntry.user, realm := roleEntry.realm, tokenID := tokenID }
        match remoteDelete call with
        | some e => (GoResult.err ("error revoking user token: " ++ e), b', [call])
        | none => (GoResult.ok (), b', [call])

/-
Interleaving model of `getClient` under the backend RWMutex (backend.go lines
66-94), for the concurrency claim.  Each thread executes:
  RLock; if client != nil return (hit); RUnlock; Lock; build, set client, Unlock.
Program counters:
  `notStarted`: before RLock;
  `rlocked`   : holding the read lock, before the nil check;
  `waitW`     : after RUnlock, waiting on Lock (the upgrade window);
  `building`  : holding the write lock, rebuilding the client;
  `doneHit`   : returned the cached client;
  `doneBuilt` : returned after building.
The model permits a superset of Go RWMutex schedules (readers are only blocked
by a held write lock, not by a waiting writer), which strengthens the safety
results; the exhibited counterexample trace uses only schedules Go permits.
-/
inductive TPC where
  | notStarted
  | rlocked
  | waitW
  | building
  | doneHit
  | doneBuilt
deriving DecidableEq

/-- Global state of `n` concurrent `getClient` calls: per-thread program
counters plus whether `b.client` is populated. -/
structure CState (n : Nat) where
  pc : Fin n → TPC
  client : Bool

/-- Pointwise update of the program-counter map. -/
def setPC {n : Nat} (pc : Fin n → TPC) (i : Fin n) (v : TPC) : Fin n → TPC :=
  fun j => if j = i then v else pc j

/-- One interleaving step of the `getClient` threads. -/
inductive GStep {n : Nat} : CState n → CState n → Prop where
  | rlock (g : CState n) (i : Fin n) (h : g.pc i = TPC.notStarted)
      (hw : ∀ j, g.pc j ≠ TPC.building) :
      GStep g ⟨setPC g.pc i TPC.rlocked, g.client⟩
  | hit (g : CState n) (i : Fin n) (h : g.pc i = TPC.rlocked) (hc : g.client = true) :
      GStep g ⟨setPC g.pc i TPC.doneHit, g.client⟩
  | miss (g : CState n) (i : Fin n) (h : g.pc i = TPC.rlocked) (hc : g.client = false) :
      GStep g ⟨setPC g.pc i TPC.waitW, g.client⟩
  | wlock (g : CState n) (i : Fin n) (h : g.pc i = TPC.waitW)
      (hr : ∀ j, g.pc j ≠ TPC.rlocked) (hw : ∀ j, g.pc j ≠ TPC.building) :
      GStep g ⟨setPC g.pc i TPC.building, g.client⟩
  | build (g : CState n) (i : Fin n) (h : g.pc i = TPC.building) :
      GStep g ⟨setPC g.pc i TPC.doneBuilt, true⟩

/-- Reflexive-transitive reachability between global states. -/
inductive ReachFrom {n : Nat} (g1 : CState n) : CState n → Prop where
  | refl : ReachFrom g1 g1
  | step (g2 g3 : CState n) : ReachFrom g1 g2 → GStep g2 g3 → ReachFrom g1 g3

/-- All threads before their call, cache empty. -/
def initState (n : Nat) : CState n :=
  ⟨fun _ => TPC.notStarted, false⟩

/-- States reachable from the initial state. -/
def Reach {n : Nat} (g : CState n) : Prop :=
  ReachFrom (initState n) g

/-- At most one build in flight in any reachable state. -/
def BuildMutexProp (n : Nat) : Prop :=
  ∀ g : CState n, Reach g → ∀ i j : Fin n,
    g.pc i = TPC.building → g.pc j = TPC.building → i = j

/-- No re-entry into the build path once a build has succeeded: at most one
thread is ever in or past the build section. -/
def NoReenterProp (n : Nat) : Prop :=
  ∀ g : CState n, Reach g → ∀ i j : Fin n,
    (g.pc i = TPC.building ∨ g.pc i = TPC.doneBuilt) →
    (g.pc j = TPC.building ∨ g.pc j = TPC.doneBuilt) → i = j

/-- The concurrency claim as stated: at most one build in flight, and (as the
double-checked pattern would guarantee) concurrent callers never re-enter the
build path after a successful build. -/
def ClaimC10 : Prop :=
  ∀ n : Nat, BuildMutexProp n ∧ NoReenterProp n

/-
Concrete two-thread traces used below.

Double-build trace (both threads pass the nil check before either builds):
  rlock 0, rlock 1, miss 0, miss 1, wlock 0, build 0, wlock 1, build 1.
-/
def dx0 : CState 2 := initState 2
def dx1 : CState 2 := ⟨setPC dx0.pc 0 TPC.rlocked, dx0.client⟩
def dx2 : CState 2 := ⟨setPC dx1.pc 1 TPC.rlocked, dx1.client⟩
def dx3 : CState 2 := ⟨setPC dx2.pc 0 TPC.waitW, dx2.client⟩
def dx4 : CState 2 := ⟨setPC dx3.pc 1 TPC.waitW, dx3.client⟩
def dx5 : CState 2 := ⟨setPC dx4.pc 0 TPC.building, dx4.client⟩
def dx6 : CState 2 := ⟨setPC dx5.pc 0 TPC.doneBuilt, true⟩
def dx7 : CState 2 := ⟨setPC dx6.pc 1 TPC.building, dx6.client⟩
def dx8 : CState 2 := ⟨setPC dx7.pc 1 TPC.doneBuilt, true⟩

/- Single-builder trace: thread 0 builds alone while thread 1 has not started:
  rlock 0, miss 0, wlock 0, build 0. -/
def cxA : CState 2 := ⟨setPC dx0.pc 0 TPC.rlocked, dx0.client⟩
def cxB : CState 2 := ⟨setPC cxA.pc 0 TPC.waitW, cxA.client⟩
def cxC : CState 2 := ⟨setPC cxB.pc 0 TPC.building, cxB.client⟩
def cxD : CState 2 := ⟨setPC cxC.pc 0 TPC.doneBuilt, true⟩

/- Concrete inputs used by the witness theorems below. -/

/-- A canonically shaped raw UUID string. -/
def uuidW : String := "abcdef01-2345-6789-abcd-ef0123456789"

def remoteOkW : ApiTokenReq → Except String String := fun _ => Except.ok "sec"

def tokenW : ProxmoxToken := { tokenID := ⟨remapTokenId uuidW.data⟩, secret := "sec" }

def roleFieldsW3 : RoleFields :=
  { name := some "alice", user := some "alice", realm := some "pve",
    ttl := some 500, maxTTL := some 100 }

def roleEntryW3 : ProxmoxRoleEntry :=
  { name := "alice", user := "alice", realm := "pve", ttl := 500, maxTTL := 100 }

def clientW : ProxmoxClient :=
  { fullToken := "root@pam!tok1", tokenSecret := "s", apiURL := "u",
    insecureSkipVerify := false, httpHeaders := "", proxyServer := "",
    timeoutSeconds := 120 }

def idataW4 : LeaseInternalData := { tokenID := some "tok", role := none }

def remoteDeleteOkW : DeleteCall → Option String := fun _ => none

def configW5 : ProxmoxConfig :=
  { user := "root", realm := "pam", apiTokenID := "tok1", apiTokenSecret := "s",
    apiURL := "https://h:8006/api2/json", skipCertValidation := false,
    httpHeaders := "", proxyServer := "", taskTimeout := 120 }

def storageW5 : Storage := { config := some configW5, roles := [] }

def roleW6 : ProxmoxRoleEntry :=
  { name := "testrole", user := "alice", realm := "pve", ttl := 300, maxTTL := 0 }

def remoteW6 : ApiTokenReq → Except String String := fun _ => Except.ok "minted"

def bW6 : BackendState := { client := some clientW }

def respW6 : SecretResponse :=
  { data := [("token_id", FieldValue.str "hi"),
             ("token_id_full", FieldValue.str "alice@pve!hi"),
             ("secret", FieldValue.str "minted")],
    internalData := [("token_id", "hi"), ("role", "testrole")],
    leaseTTL := 300, leaseMaxTTL := 0 }

def configFieldsW7 : ConfigFields :=
  { user := some "root", realm := some "pam", tokenID := some "tok1",
    tokenSecret := some "s", proxmoxURL := some "https://h:8006/api2/json",
    skipCertValidation := none, httpHeaders := none, proxyServer := none,
    timeout := none }

def storageW7 : Storage := { config := some configW5, roles := [] }

def roleFieldsW9 : RoleFields :=
  { name := some "r", user := none, realm := none, ttl := none, maxTTL := none }

/- ------------------------------------------------------------------ -/
/- Theorems.                                                           -/
/- ------------------------------------------------------------------ -/

/-- Claim C1: the spec says a config read with no stored Connection Profile
returns a default/empty configuration object.  The code instead dereferences
the nil pointer returned by `getConfig` (path_config.go line 149 accesses
`c.User` without a nil check), i.e. it panics rather than answering with
defaults.  This theorem evaluates the handler at the failing input. -/
theorem config_read_no_profile_derefs_nil :
    pathConfigRead emptyStorage = GoResult.nilDeref := rfl

/-- Claim C5: a config read against an existing profile returns exactly the
eight non-secret fields; `token_secret` is not among the returned keys, and
the response is invariant under changes to the stored secret (so the secret
value cannot appear in it). -/
theorem config_read_excludes_secret (s : Storage) (c : ProxmoxConfig)
    (h : getConfig s = some c) :
    pathConfigRead s = GoResult.ok (configReadData c) ∧
    (configReadData c).map Prod.fst =
      ["user", "realm", "token_id", "proxmox_url", "insecure_skip_tls_verify",
       "http_headers", "proxy_server", "timeout"] ∧
    "token_secret" ∉ (configReadData c).map Prod.fst ∧
    ∀ sec : String,
      pathConfigRead { config := some { c with apiTokenSecret := sec }, roles := s.roles } =
        pathConfigRead s := by
  have hs : pathConfigRead s = GoResult.ok (configReadData c) := by
    unfold pathConfigRead
    rw [h]
  refine ⟨hs, rfl, ?_, ?_⟩
  · have hk : (configReadData c).map Prod.fst =
        ["user", "realm", "token_id", "proxmox_url", "insecure_skip_tls_verify",
         "http_headers", "proxy_server", "timeout"] := rfl
    rw [hk]
    decide
  · intro sec
    rw [hs]
    rfl

theorem config_read_excludes_secret_witness :
    getConfig storageW5 = some configW5 ∧
    pathConfigRead storageW5 = GoResult.ok (configReadData configW5) :=
  ⟨rfl, (config_read_excludes_secret storageW5 configW5 rfl).1⟩

/-- Claim C7: a successful config write resets the cached client, a config
delete resets the cached client, and a subsequent `getClient` on the empty
cache rebuilds from the profile currently in storage. -/
theorem config_write_delete_invalidate (op : GoOperation) (b : BackendState)
    (s : Storage) (d : ConfigFields) (b' : BackendState) (s' : Storage) :
    (pathConfigWrite op b s d = (GoResult.ok (), b', s') → b'.client = none) ∧
    (pathConfigDelete b s).1.client = none ∧
    ∀ s2 : Storage,
      getClient { client := none } s2 =
        Except.map (fun c => (c, { client := some c }))
          (newClient (some (effectiveConfig s2))) := by
  refine ⟨?_, rfl, ?_⟩
  · intro hw
    unfold pathConfigWrite at hw
    split at hw
    · exact absurd hw (by simp)
    · split at hw
      · exact absurd hw (by simp)
      · simp only [Prod.mk.injEq] at hw
        obtain ⟨-, h2, -⟩ := hw
        rw [← h2]
  · intro s2
    unfold getClient
    cases hn : newClient (some (effectiveConfig s2)) with
    | error e => rfl
    | ok c => rfl

theorem config_write_delete_invalidate_witness :
    pathConfigWrite GoOperation.create { client := some clientW } emptyStorage configFieldsW7 =
      (GoResult.ok (), { client := none }, storageW7) ∧
    ({ client := none } : BackendState).client = none :=
  ⟨rfl,
   (config_write_delete_invalidate GoOperation.create { client := some clientW }
      emptyStorage configFieldsW7 { client := none } storageW7).1 rfl⟩

/-- Claim C8: with an empty client cache, an empty admin token identifier in
the effective profile (including the no-profile case, which is treated as the
all-defaults empty profile) makes `getClient` fail with the client-build
error, not a not-found error; a non-empty identifier yields a client whose
compound credential handle is `user@realm!tokenID`. -/
theorem getclient_token_id_cases (b : BackendState) (s : Storage)
    (hb : b.client = none) :
    ((effectiveConfig s).apiTokenID = "" →
      getClient b s = Except.error "client api token was not defined") ∧
    ((effectiveConfig s).apiTokenID ≠ "" →
      ∃ c : ProxmoxClient,
        getClient b s = Except.ok (c, { client := some c }) ∧
        c.fullToken = (effectiveConfig s).user ++ "@" ++ (effectiveConfig s).realm ++
          "!" ++ (effectiveConfig s).apiTokenID) := by
  constructor
  · intro he
    unfold getClient
    rw [hb]
    have hnc : newClient (some (effectiveConfig s)) =
        Except.error "client api token was not defined" := by
      simp only [newClient]
      rw [if_pos he]
    rw [hnc]
  · intro he
    unfold getClient
    rw [hb]
    have hnc : newClient (some (effectiveConfig s)) =
        Except.ok
          { fullToken := (effectiveConfig s).user ++ "@" ++ (effectiveConfig s).realm ++
              "!" ++ (effectiveConfig s).apiTokenID,
            tokenSecret := (effectiveConfig s).apiTokenSecret,
            apiURL := (effectiveConfig s).apiURL,
            insecureSkipVerify := (effectiveConfig s).skipCertValidation,
            httpHeaders := (effectiveConfig s).httpHeaders,
            proxyServer := (effectiveConfig s).proxyServer,
            timeoutSeconds := (effectiveConfig s).taskTimeout } := by
      simp only [newClient]
      rw [if_neg he]
    rw [hnc]
    exact ⟨_, rfl, rfl⟩

theorem getclient_token_id_cases_witness :
    getClient { client := none } emptyStorage =
      Except.error "client api token was not defined" ∧
    ∃ c : ProxmoxClient,
      getClient { client := none } storageW5 = Except.ok (c, { client := some c }) ∧
        c.fullToken = "root@pam!tok1" :=
  ⟨(getclient_token_id_cases { client := none } emptyStorage rfl).1 rfl,
   (getclient_token_id_cases { client := none } storageW5 rfl).2 (by decide)⟩

/-- Claim C3: a role write whose merged record has `MaxTTL > 0` and
`TTL > MaxTTL` returns the user-facing validation error response and leaves
role storage untouched. -/
theorem roles_write_ttl_validation (op : GoOperation) (s : Storage) (d : RoleFields)
    (e : ProxmoxRoleEntry) (hm : mergedRoleEntry op s d = some e)
    (h1 : 0 < e.maxTTL) (h2 : e.maxTTL < e.ttl) :
    pathRolesWrite op s d =
      (RoleWriteResult.errorResponse "ttl cannot be greater than max_ttl", s) := by
  unfold mergedRoleEntry at hm
  cases hn : d.name with
  | none => rw [hn] at hm; exact absurd hm (by simp)
  | some n =>
    simp only [hn] at hm
    cases hg : getRole s n with
    | error m => simp only [hg] at hm; exact absurd hm (by simp)
    | ok existing =>
      simp only [hg] at hm
      cases hmg : mergeRoleFields op existing n d with
      | error m =>
        simp only [hmg] at hm
        exact absurd hm (by simp [Except.toOption])
      | ok e2 =>
        simp only [hmg, Except.toOption, Option.some.injEq] at hm
        subst hm
        unfold pathRolesWrite
        simp only [hn, hg, hmg]
        rw [if_pos ⟨by omega, h2⟩]

theorem roles_write_ttl_validation_witness :
    mergedRoleEntry GoOperation.create emptyStorage roleFieldsW3 = some roleEntryW3 ∧
    pathRolesWrite GoOperation.create emptyStorage roleFieldsW3 =
      (RoleWriteResult.errorResponse "ttl cannot be greater than max_ttl", emptyStorage) :=
  ⟨rfl,
   roles_write_ttl_validation GoOperation.create emptyStorage roleFieldsW3 roleEntryW3
     rfl (by decide) (by decide)⟩

/-- Claim C9: an update on `role/{name}` with no existing record does not fail
with a not-found error: it builds a fresh record (user and realm empty when
not supplied, TTLs defaulting to 0) and persists it — unlike a config update
with no existing record, which fails with the not-found error. -/
theorem roles_update_absent_creates (s : Storage) (d : RoleFields) (n : String)
    (b : BackendState) (s2 : Storage) (d2 : ConfigFields)
    (hn : d.name = some n) (hne : n ≠ "")
    (habs : s.roles.lookup n = none)
    (hu : d.user = none ∨ d.user = some "")
    (hr : d.realm = none ∨ d.realm = some "")
    (hok : d.maxTTL.getD 0 = 0 ∨ d.ttl.getD 0 ≤ d.maxTTL.getD 0)
    (hc2 : getConfig s2 = none) :
    pathRolesWrite GoOperation.update s d =
      (RoleWriteResult.success,
        { s with roles := rolesPut s.roles n { name := n, user := "", realm := "", ttl := d.ttl.getD 0, maxTTL := d.maxTTL.getD 0 } }) ∧
    pathConfigWrite GoOperation.update b s2 d2 =
      (GoResult.err "config not found during update operation", b, s2) := by
  constructor
  · have hre : getRole s n = Except.ok none := by
      unfold getRole
      rw [if_neg hne, habs]
    have hmg : mergeRoleFields GoOperation.update none n d =
        Except.ok { name := n, user := "", realm := "",
                    ttl := d.ttl.getD 0, maxTTL := d.maxTTL.getD 0 } := by
      unfold mergeRoleFields mergeRoleUser mergeRoleRealm mergeRoleTTL mergeRoleMaxTTL
      rcases hu with hu | hu <;> rcases hr with hr | hr <;>
        cases ht : d.ttl <;> cases hM : d.maxTTL <;>
          simp [hu, hr, ht, hM]
    have hcond : ¬(d.maxTTL.getD 0 ≠ 0 ∧ d.ttl.getD 0 > d.maxTTL.getD 0) := by
      rintro ⟨ha, hb2⟩
      rcases hok with h | h
      · exact ha h
      · omega
    unfold pathRolesWrite
    simp only [hn, hre, hmg]
    rw [if_neg hcond]
  · unfold pathConfigWrite
    rw [hc2]

/-- A lowercase hex digit is remapped to a letter (digits go to g..p, letters
a..f are unchanged) and never to a decimal digit. -/
theorem hex_remap (c : Char) (h : isLowerHexDigit c = true) :
    (digitMap c).isAlpha = true ∧ (digitMap c).isDigit = false := by
  unfold isLowerHexDigit at h
  simp only [Bool.or_eq_true, beq_iff_eq] at h
  rcases h with
    ((((((((((((((rfl | rfl) | rfl) | rfl) | rfl) | rfl) | rfl) | rfl) | rfl) | rfl) |
      rfl) | rfl) | rfl) | rfl) | rfl) | rfl <;>
    exact ⟨by decide, by decide⟩

/-- Any character admissible in a canonical UUID string maps to a non-digit. -/
theorem uuid_char_nodigit (i : Nat) (c : Char) (h : uuidCharOk i c = true) :
    (digitMap c).isDigit = false := by
  unfold uuidCharOk at h
  split at h
  · have hc : c = '-' := by simpa using h
    subst hc
    decide
  · exact (hex_remap c h).2

/-- Claim C2: the token identifier minted by `createToken` from a canonically
shaped raw UUID string starts with an alphabetic character and contains no
decimal digits. -/
theorem createtoken_id_alpha_nodigit (user realm : String) (expire : Int)
    (privsep : Bool) (raw : String) (remote : ApiTokenReq → Except String String)
    (t : ProxmoxToken) (hu : isUUIDString raw.data = true)
    (hc : createToken user realm expire privsep raw remote = Except.ok t) :
    (∃ c, t.tokenID.data.head? = some c ∧ c.isAlpha = true) ∧
    ∀ c ∈ t.tokenID.data, c.isDigit = false := by
  have hdata : t.tokenID.data = remapTokenId raw.data := by
    unfold createToken at hc
    split at hc
    · exact absurd hc (by simp)
    · split at hc
      · exact absurd hc (by simp)
      · split at hc
        · exact absurd hc (by simp)
        · simp only [Except.ok.injEq] at hc
          rw [← hc]
  unfold isUUIDString at hu
  rw [Bool.and_eq_true] at hu
  obtain ⟨hlen, hall⟩ := hu
  have hlen' : raw.data.length = 36 := by simpa using hlen
  rw [List.all_eq_true] at hall
  constructor
  · cases hd : raw.data with
    | nil => rw [hd] at hlen'; exact absurd hlen' (by decide)
    | cons a rest =>
      have h0 := hall 0 (by decide)
      rw [hd] at h0
      have hhex : isLowerHexDigit a = true := h0
      refine ⟨digitMap a, ?_, (hex_remap a hhex).1⟩
      rw [hdata, hd]
      rfl
  · intro c hcmem
    rw [hdata] at hcmem
    unfold remapTokenId at hcmem
    obtain ⟨c0, hc0mem, hc0⟩ := List.mem_map.mp hcmem
    obtain ⟨i, hgi⟩ := List.mem_iff_get?.mp hc0mem
    have hi : i < raw.data.length := by
      rcases List.get?_eq_some.mp hgi with ⟨hlt, -⟩
      exact hlt
    have hui := hall i (List.mem_range.mpr (by omega))
    rw [hgi] at hui
    rw [← hc0]
    exact uuid_char_nodigit i c0 hui

theorem createtoken_id_alpha_nodigit_witness :
    isUUIDString uuidW.data = true ∧
    createToken "alice" "pve" 0 false uuidW remoteOkW = Except.ok tokenW ∧
    (∃ c, tokenW.tokenID.data.head? = some c ∧ c.isAlpha = true) ∧
    ∀ c ∈ tokenW.tokenID.data, c.isDigit = false :=
  ⟨by decide, rfl,
   (createtoken_id_alpha_nodigit "alice" "pve" 0 false uuidW remoteOkW tokenW
      (by decide) rfl).1,
   (createtoken_id_alpha_nodigit "alice" "pve" 0 false uuidW remoteOkW tokenW
      (by decide) rfl).2⟩

/-- Claim C4: when the lease internal data has no role name, or the named role
no longer exists in storage, `tokenRevoke` returns an error and no remote
delete call is attempted. -/
theorem revoke_missing_role_errors (b : BackendState) (s : Storage)
    (idata : LeaseInternalData) (remoteDelete : DeleteCall → Option String)
    (h : idata.role = none ∨ ∃ r, idata.role = some r ∧ s.roles.lookup r = none) :
    (∃ m, (tokenRevoke b s idata remoteDelete).1 = GoResult.err m) ∧
    (tokenRevoke b s idata remoteDelete).2.2 = [] := by
  unfold tokenRevoke
  cases hg : getClient b s with
  | error e => exact ⟨⟨_, rfl⟩, rfl⟩
  | ok p =>
    obtain ⟨cl, b'⟩ := p
    rcases h with hrole | ⟨r, hrole, habs⟩
    · simp only [hrole]
      exact ⟨⟨_, by trivial⟩, by trivial⟩
    · simp only [hrole]
      by_cases hre : r = ""
      · subst hre
        exact ⟨⟨_, by trivial⟩, by trivial⟩
      · have hgr : getRole s r = Except.ok none := by
          unfold getRole
          rw [if_neg hre, habs]
        rw [hgr]
        exact ⟨⟨_, by trivial⟩, by trivial⟩

theorem revoke_missing_role_errors_witness :
    (∃ m, (tokenRevoke { client := some clientW } emptyStorage idataW4 remoteDeleteOkW).1 =
      GoResult.err m) ∧
    (tokenRevoke { client := some clientW } emptyStorage idataW4 remoteDeleteOkW).2.2 = [] :=
  revoke_missing_role_errors { client := some clientW } emptyStorage idataW4
    remoteDeleteOkW (Or.inl rfl)

/-- Claim C6: a successful credentials issuance responds with `token_id`,
`token_id_full = user@realm!token_id` built from the role's identity, and the
secret; the lease internal data is exactly the token identifier and the role
name (the statement is independent of the minted secret value, so the secret
is never part of the internal data). -/
theorem creds_response_shape (b : BackendState) (s : Storage)
    (role : ProxmoxRoleEntry) (now : Int) (raw : String)
    (remote : ApiTokenReq → Except String String) (resp : SecretResponse)
    (b' : BackendState)
    (h : createUserCreds b s role now raw remote = Except.ok (resp, b')) :
    ∃ tid sec : String,
      resp.data = [("token_id", FieldValue.str tid),
                   ("token_id_full", FieldValue.str (role.user ++ "@" ++ role.realm ++ "!" ++ tid)),
                   ("secret", FieldValue.str sec)] ∧
      resp.internalData = [("token_id", tid), ("role", role.name)] := by
  unfold createUserCreds at h
  cases hbc : backendCreateToken b s role now raw remote with
  | error e =>
    rw [hbc] at h
    exact absurd h (by simp)
  | ok p =>
    obtain ⟨token, b2⟩ := p
    rw [hbc] at h
    simp only [Except.ok.injEq, Prod.mk.injEq] at h
    obtain ⟨h1, -⟩ := h
    rw [← h1]
    exact ⟨token.tokenID, token.secret, rfl, rfl⟩

theorem creds_response_shape_witness :
    createUserCreds bW6 emptyStorage roleW6 0 "12" remoteW6 = Except.ok (respW6, bW6) ∧
    ∃ tid sec : String,
      respW6.data = [("token_id", FieldValue.str tid),
                     ("token_id_full", FieldValue.str ("alice" ++ "@" ++ "pve" ++ "!" ++ tid)),
                     ("secret", FieldValue.str sec)] ∧
      respW6.internalData = [("token_id", tid), ("role", "testrole")] :=
  ⟨rfl, creds_response_shape bW6 emptyStorage roleW6 0 "12" remoteW6 respW6 bW6 rfl⟩

theorem roles_update_absent_creates_witness :
    pathRolesWrite GoOperation.update emptyStorage roleFieldsW9 =
      (RoleWriteResult.success,
        { emptyStorage with roles := rolesPut emptyStorage.roles "r" { name := "r", user := "", realm := "", ttl := 0, maxTTL := 0 } }) ∧
    pathConfigWrite GoOperation.update { client := none } emptyStorage configFieldsW7 =
      (GoResult.err "config not found during update operation",
        { client := none }, emptyStorage) :=
  roles_update_absent_creates emptyStorage roleFieldsW9 "r" { client := none }
    emptyStorage configFieldsW7 rfl (by decide) rfl (Or.inl rfl) (Or.inl rfl)
    (Or.inl rfl) rfl

/-- If an updated program counter is `building`, either the written value was
`building` (and the index is the written one) or the underlying map already
had `building` there. -/
theorem setPC_building {n : Nat} (pc : Fin n → TPC) (k i : Fin n) (v : TPC)
    (hv : v ≠ TPC.building) (h : setPC pc k v i = TPC.building) :
    pc i = TPC.building ∧ i ≠ k := by
  by_cases hik : i = k
  · subst hik
    rw [show setPC pc i v i = v from by simp [setPC]] at h
    exact absurd h hv
  · refine ⟨?_, hik⟩
    simpa [setPC, hik] using h

/-- Mutual exclusion of the build section: in every reachable state at most
one thread holds the write lock and is building. -/
theorem buildMutex_all (n : Nat) : BuildMutexProp n := by
  intro g hg
  unfold Reach at hg
  induction hg with
  | refl =>
    intro i j hi _
    exact absurd hi (by simp [initState])
  | step g2 g3 hr12 hstep ih =>
    intro i j hi hj
    cases hstep with
    | rlock k hk hw =>
      obtain ⟨hi', -⟩ := setPC_building g2.pc k i TPC.rlocked (by decide) hi
      obtain ⟨hj', -⟩ := setPC_building g2.pc k j TPC.rlocked (by decide) hj
      exact ih i j hi' hj'
    | hit k hk hc =>
      obtain ⟨hi', -⟩ := setPC_building g2.pc k i TPC.doneHit (by decide) hi
      obtain ⟨hj', -⟩ := setPC_building g2.pc k j TPC.doneHit (by decide) hj
      exact ih i j hi' hj'
    | miss k hk hc =>
      obtain ⟨hi', -⟩ := setPC_building g2.pc k i TPC.waitW (by decide) hi
      obtain ⟨hj', -⟩ := setPC_building g2.pc k j TPC.waitW (by decide) hj
      exact ih i j hi' hj'
    | wlock k hk hr hw =>
      by_cases hik : i = k
      · by_cases hjk : j = k
        · rw [hik, hjk]
        · exact absurd (by simpa [setPC, hjk] using hj) (hw j)
      · exact absurd (by simpa [setPC, hik] using hi) (hw i)
    | build k hk =>
      obtain ⟨hi', -⟩ := setPC_building g2.pc k i TPC.doneBuilt (by decide) hi
      obtain ⟨hj', -⟩ := setPC_building g2.pc k j TPC.doneBuilt (by decide) hj
      exact ih i j hi' hj'

/-- Once the cache is populated, it stays populated, and a thread that has not
yet passed the nil check (`notStarted` or `rlocked`) can only proceed to the
fast path (`doneHit`): it never reaches the upgrade window or the build
section. -/
theorem fresh_reader_stays {n : Nat} (g g' : CState n) (i : Fin n)
    (hcl : g.client = true)
    (hpc : g.pc i = TPC.notStarted ∨ g.pc i = TPC.rlocked ∨ g.pc i = TPC.doneHit)
    (hr : ReachFrom g g') :
    g'.client = true ∧
      (g'.pc i = TPC.notStarted ∨ g'.pc i = TPC.rlocked ∨ g'.pc i = TPC.doneHit) := by
  induction hr with
  | refl => exact ⟨hcl, hpc⟩
  | step g2 g3 hr12 hstep ih =>
    obtain ⟨hcl2, hpc2⟩ := ih
    cases hstep with
    | rlock k hk hw =>
      refine ⟨hcl2, ?_⟩
      by_cases hik : i = k
      · subst hik
        right; left
        simp [setPC]
      · simpa [setPC, hik] using hpc2
    | hit k hk hc =>
      refine ⟨hcl2, ?_⟩
      by_cases hik : i = k
      · subst hik
        right; right
        simp [setPC]
      · simpa [setPC, hik] using hpc2
    | miss k hk hc =>
      rw [hcl2] at hc
      exact absurd hc (by decide)
    | wlock k hk hr2 hw =>
      refine ⟨hcl2, ?_⟩
      by_cases hik : i = k
      · subst hik
        rcases hpc2 with h | h | h <;> rw [h] at hk <;> exact absurd hk (by decide)
      · simpa [setPC, hik] using hpc2
    | build k hk =>
      refine ⟨rfl, ?_⟩
      by_cases hik : i = k
      · subst hik
        rcases hpc2 with h | h | h <;> rw [h] at hk <;> exact absurd hk (by decide)
      · simpa [setPC, hik] using hpc2

theorem reach_cxD : Reach cxD :=
  ReachFrom.step _ _
    (ReachFrom.step _ _
      (ReachFrom.step _ _
        (ReachFrom.step _ _ ReachFrom.refl
          (GStep.rlock dx0 0 (by decide) (by decide)))
        (GStep.miss cxA 0 (by decide) (by decide)))
      (GStep.wlock cxB 0 (by decide) (by decide) (by decide)))
    (GStep.build cxC 0 (by decide))

theorem reach_dx5 : Reach dx5 :=
  ReachFrom.step _ _
    (ReachFrom.step _ _
      (ReachFrom.step _ _
        (ReachFrom.step _ _ ReachFrom.refl
          (GStep.rlock dx0 0 (by decide) (by decide)))
        (GStep.rlock dx1 1 (by decide) (by decide)))
      (GStep.miss dx2 0 (by decide) (by decide)))
    (GStep.miss dx3 1 (by decide) (by decide))
    |> fun h => ReachFrom.step _ _ h (GStep.wlock dx4 0 (by decide) (by decide) (by decide))

theorem reach_dx8 : Reach dx8 :=
  ReachFrom.step _ _
    (ReachFrom.step _ _
      (ReachFrom.step _ _ reach_dx5 (GStep.build dx5 0 (by decide)))
      (GStep.wlock dx6 1 (by decide) (by decide) (by decide)))
    (GStep.build dx7 1 (by decide))

/-- Claim C10 counterexample: the code takes the read lock, releases it on a
miss and re-acquires the write lock *without re-checking the cache*
(backend.go lines 75-88 have no second `b.client != nil` test), so two callers
that both saw an empty cache both build: the double-build trace refutes the
claimed no-re-entry property. -/
theorem getclient_no_reenter_cex : ¬ ClaimC10 := by
  intro h
  have h2 := (h 2).2 dx8 reach_dx8 0 1 (Or.inr (by decide)) (Or.inr (by decide))
  exact absurd h2 (by decide)

/-- Claim C10 amended: builds are mutually exclusive (at most one build in
flight, since the build runs under the exclusive lock), and a caller that has
not yet performed the cache check when the cache is already populated never
enters the build path; but a caller that passed the check before a concurrent
build completed re-enters the build path (see the counterexample). -/
theorem getclient_locking_amended :
    (∀ n : Nat, BuildMutexProp n) ∧
    (∀ (n : Nat) (g g' : CState n) (i : Fin n), Reach g → g.client = true →
      (g.pc i = TPC.notStarted ∨ g.pc i = TPC.rlocked) → ReachFrom g g' →
      g'.pc i ≠ TPC.building) := by
  constructor
  · exact buildMutex_all
  · intro n g g' i _ hcl hpc hr
    have h := fresh_reader_stays g g' i hcl
      (by rcases hpc with h | h
          · exact Or.inl h
          · exact Or.inr (Or.inl h)) hr
    rcases h.2 with h2 | h2 | h2 <;> rw [h2] <;> decide

theorem getclient_locking_amended_witness :
    (0 : Fin 2) = (0 : Fin 2) ∧ cxD.pc 1 ≠ TPC.building :=
  ⟨getclient_locking_amended.1 2 dx5 reach_dx5 0 0 (by decide) (by decide),
   getclient_locking_amended.2 2 cxD cxD 1 reach_cxD (by decide) (Or.inl (by decide))
     ReachFrom.refl⟩
